import Mathlib

/-!
Verification of the LangGraph workflow orchestrator
(`src/langgraph_builder.py` and its helpers) via a shallow embedding.

JSON-like data is modelled by `Value`; Python `dict`s become ordered
association lists (insertion order, unique keys in practice), matching the
observable semantics of `dict.get` / `in` used by the source.
-/

/-- JSON-like values flowing through the workflow: strings, numbers,
booleans, null, objects (ordered key/value maps) and arrays. -/
inductive Value where
  | str (s : String)
  | num (n : Int)
  | bool (b : Bool)
  | null
  | obj (fields : List (String × Value))
  | arr (items : List Value)
deriving Repr

/-- Lookup in an object's field list, modelling Python `d[k]` / `k in d`
(first binding wins, as a dict has unique keys). -/
def objGet (fields : List (String × Value)) (k : String) : Option Value :=
  (fields.find? (fun p => p.1 == k)).map (fun p => p.2)

/-- Python `d.get(k, {})`: the value at `k`, or an empty mapping. -/
def objGetD (fields : List (String × Value)) (k : String) : Value :=
  (objGet fields k).getD (Value.obj [])

/-- Whether a value is a mapping (`isinstance(value, dict)`). -/
def Value.isObj : Value → Bool
  | Value.obj _ => true
  | _ => false

/-- Try to match the regex `\x7b\x7b([^}]+)\x7d\x7d` at the start of a
character list; on success, return the captured group. The group is the
maximal nonempty run of non-`\x7d` characters after the opening braces,
which must be followed by two closing braces. -/
def matchAt (l : List Char) : Option (List Char) :=
  match l with
  | '\x7b' :: '\x7b' :: rest =>
      let inner := rest.takeWhile (fun c => c ≠ '\x7d')
      if inner = [] then none
      else
        match rest.drop inner.length with
        | '\x7d' :: '\x7d' :: _ => some inner
        | _ => none
  | _ => none

/-- Leftmost match of `\x7b\x7b([^}]+)\x7d\x7d`, as Python `re.search`
(`langgraph_builder.py` line 143): try each start position left to right. -/
def findRefAux : List Char → Option (List Char)
  | [] => none
  | c :: rest =>
      match matchAt (c :: rest) with
      | some inner => some inner
      | none => findRefAux rest

/-- `re.search(pattern, value)` on a string, returning `match.group(1)`. -/
def findRef (s : String) : Option String :=
  (findRefAux s.data).map (fun l => String.mk l)

/-- Python `str.split('.')`: split on every dot, keeping empty pieces;
an empty input yields one empty piece. -/
def splitOnDot : List Char → List (List Char)
  | [] => [[]]
  | '.' :: rest => [] :: splitOnDot rest
  | c :: rest =>
      match splitOnDot rest with
      | h :: t => (c :: h) :: t
      | [] => [[c]]

/-- `ref_path.split('.')` as a list of strings. -/
def pathParts (p : String) : List String :=
  (splitOnDot p.data).map (fun l => String.mk l)

/-- Error message standing for the `AttributeError` Python raises when
`.get` is called on a non-dict value. -/
def attrErr : String := "AttributeError: object has no attribute get"

/-- The `config` walk (`langgraph_builder.py` lines 150-153):
`result = result.get(part, \x7b\x7d)` for each remaining segment. On a
non-mapping intermediate the call raises (`AttributeError`). -/
def configWalk : Value → List String → Except String Value
  | v, [] => Except.ok v
  | Value.obj fields, p :: rest => configWalk (objGetD fields p) rest
  | _, _ :: _ => Except.error attrErr

/-- The step-output walk (`langgraph_builder.py` lines 158-160): each
segment does `result = result.get(part, \x7b\x7d)` only when the current
value is a dict; a non-dict value is left unchanged (the segment is
skipped). Never fails. -/
def stepWalk : Value → List String → Value
  | v, [] => v
  | Value.obj fields, p :: rest => stepWalk (objGetD fields p) rest
  | v, _ :: rest => stepWalk v rest

/-- Resolution of a matched reference path (`langgraph_builder.py` lines
146-162), given the original string `orig` for the fall-through
`return value`. `parts` is `ref_path.split('.')` and is never empty. -/
def resolvePath (stepOutputs cfg : List (String × Value))
    (parts : List String) (orig : String) : Except String Value :=
  if parts.headD "" = "config" then
    configWalk (Value.obj cfg) (parts.drop 1)
  else if 3 ≤ parts.length then
    match objGet stepOutputs (parts.headD "") with
    | some out => Except.ok (stepWalk out (parts.drop 2))
    | none => Except.ok (Value.str orig)
  else
    Except.ok (Value.str orig)

/-- `resolve_value` on a scalar string (`langgraph_builder.py` lines
141-162): search for the first `\x7b\x7b<path>\x7d\x7d` token; with no
match return the string unchanged; otherwise resolve the path, with all
fall-through cases returning the original string. -/
def resolveScalar (stepOutputs cfg : List (String × Value))
    (s : String) : Except String Value :=
  match findRef s with
  | none => Except.ok (Value.str s)
  | some refPath => resolvePath stepOutputs cfg (pathParts refPath) s

mutual

/-- `resolve_value` (`langgraph_builder.py` lines 140-168): strings go
through reference resolution; mappings and sequences are resolved
recursively preserving keys, order and length; other scalars are returned
unchanged. The `Except` layer carries the `AttributeError` the config walk
can raise. -/
def resolve_value (stepOutputs cfg : List (String × Value)) :
    Value → Except String Value
  | Value.str s => resolveScalar stepOutputs cfg s
  | Value.num n => Except.ok (Value.num n)
  | Value.bool b => Except.ok (Value.bool b)
  | Value.null => Except.ok Value.null
  | Value.obj fields => Except.map Value.obj (resolveFields stepOutputs cfg fields)
  | Value.arr items => Except.map Value.arr (resolveItems stepOutputs cfg items)

/-- Resolve each value of a mapping, preserving keys and order. -/
def resolveFields (stepOutputs cfg : List (String × Value)) :
    List (String × Value) → Except String (List (String × Value))
  | [] => Except.ok []
  | (k, v) :: rest =>
      match resolve_value stepOutputs cfg v with
      | Except.error e => Except.error e
      | Except.ok v' =>
          match resolveFields stepOutputs cfg rest with
          | Except.error e => Except.error e
          | Except.ok rest' => Except.ok ((k, v') :: rest')

/-- Resolve each element of a sequence, preserving order and length. -/
def resolveItems (stepOutputs cfg : List (String × Value)) :
    List Value → Except String (List Value)
  | [] => Except.ok []
  | v :: rest =>
      match resolve_value stepOutputs cfg v with
      | Except.error e => Except.error e
      | Except.ok v' =>
          match resolveItems stepOutputs cfg rest with
          | Except.error e => Except.error e
          | Except.ok rest' => Except.ok (v' :: rest')

end

/-- A workflow step (`WorkflowStep` in `src/utils/validators.py`): id,
capability (agent) name, input template, free-text instructions and the
declared output schema. Tools are resolved externally and not modelled. -/
structure Step where
  id : String
  agent : String
  inputs : Value
  instructions : String
  output_schema : List (String × Value)

/-- The mutable run state threaded through the graph
(`WorkflowState` in `langgraph_builder.py`): recorded per-step outputs
and the current-step cursor. -/
structure RunState where
  step_outputs : List (String × Value)
  current_step : String
deriving Repr

/-- Modelled from the spec: `RunState.record(step_id, output)` (spec
section 4.2) fails when `step_id` already has a recorded output
(write-once invariant). The source (`node_function`, line 123) performs a
plain unconditional dict assignment and keeps the invariant only
implicitly, so the enforcing operation is missing from the source and is
taken from the spec's words. -/
def RunState.record (st : RunState) (stepId : String) (output : Value) :
    Except String RunState :=
  match objGet st.step_outputs stepId with
  | some _ => Except.error ("step already recorded: " ++ stepId)
  | none =>
      Except.ok { st with step_outputs := st.step_outputs ++ [(stepId, output)] }

/-- A capability's `execute(inputs) -> outputs` contract
(`BaseAgent.execute` in `src/agents/__init__.py`): from resolved inputs
to an output mapping, or a failure. -/
def Capability : Type := Value → Except String (List (String × Value))

/-- The capability registry (`AGENT_REGISTRY` in `langgraph_builder.py`):
a name-to-capability table consulted with `.get`. -/
def lookupAgent (registry : List (String × Capability)) (name : String) :
    Option Capability :=
  (registry.find? (fun p => p.1 == name)).map (fun p => p.2)

/-- `BaseAgent.validate_output` (`src/agents/__init__.py` lines 71-85):
scan the declared schema keys in order; on the first key missing from the
output, emit a warning and return false; otherwise return true with no
warning. It is a total function: it never raises. -/
def validate_output (output_schema : List (String × Value))
    (output : List (String × Value)) : Bool × List String :=
  match output_schema.find? (fun p => (objGet output p.1).isNone) with
  | some p => (false, ["Warning: Missing expected output key: " ++ p.1])
  | none => (true, [])

/-- Errors a node function can raise (`node_function`,
`langgraph_builder.py` lines 102-134): unknown agent name, an
`AttributeError` escaping input resolution, or a capability failure
(which the handler logs and re-raises, naming the step). -/
inductive ExecError where
  | unknownAgent (name : String)
  | resolveError (msg : String)
  | capabilityError (stepId : String) (msg : String)
deriving Repr, DecidableEq

/-- One node function invocation (`node_function`, lines 102-134): look
the agent up in the registry (`ValueError` when absent), resolve the
step's inputs against the current run state and static config, invoke the
capability, and on success record its output under the step id and
advance the cursor. A capability failure is re-raised unchanged; nothing
is recorded for the failing step. -/
def execStep (registry : List (String × Capability))
    (cfg : List (String × Value)) (st : RunState) (step : Step) :
    Except ExecError RunState :=
  match lookupAgent registry step.agent with
  | none => Except.error (ExecError.unknownAgent step.agent)
  | some cap =>
      match resolve_value st.step_outputs cfg step.inputs with
      | Except.error e => Except.error (ExecError.resolveError e)
      | Except.ok ins =>
          match cap ins with
          | Except.error e => Except.error (ExecError.capabilityError step.id e)
          | Except.ok output =>
              Except.ok { step_outputs := st.step_outputs ++ [(step.id, Value.obj output)],
                          current_step := step.id }

/-- Sequential execution of the compiled linear chain
(`graph.invoke` in `execute`, driven by the edges added in `build_graph`):
run each step in declared order, stopping at the first error. The pair
returns the run state as it stands when execution stops — on an error the
state retains exactly the outputs recorded before the failing step, as a
raised Python exception leaves the mutated state dict behind. -/
def runSteps (registry : List (String × Capability))
    (cfg : List (String × Value)) (st : RunState) :
    List Step → RunState × Option ExecError
  | [] => (st, none)
  | step :: rest =>
      match execStep registry cfg st step with
      | Except.error e => (st, some e)
      | Except.ok st' => runSteps registry cfg st' rest

/-- An edge target: another step's node, or the `END` sentinel. -/
inductive NodeTarget where
  | node (id : String)
  | terminal
deriving Repr, DecidableEq

/-- The built graph: node list, entry point and directed edges. -/
structure Graph where
  nodes : List String
  entry : String
  edges : List (String × NodeTarget)
deriving Repr, DecidableEq

/-- Build-time failures of `build_graph`: `steps[0]` on an empty list
(IndexError), and `StateGraph.add_node` on an already-present node id
(ValueError). -/
inductive BuildError where
  | emptySpec
  | duplicateStepId (id : String)
deriving Repr, DecidableEq

/-- The node-adding loop (`build_graph`, lines 78-83):
`StateGraph.add_node` fails when the id is already present. -/
def addNodes : List String → List String → Except BuildError (List String)
  | acc, [] => Except.ok acc
  | acc, id :: rest =>
      if id ∈ acc then Except.error (BuildError.duplicateStepId id)
      else addNodes (acc ++ [id]) rest

/-- `build_graph` (`langgraph_builder.py` lines 73-99): add one node per
step (failing on a duplicate id), set the entry point to `steps[0].id`
(failing on an empty list), add an edge `steps[i].id -> steps[i+1].id`
for each consecutive pair, and a final edge from the last step to `END`. -/
def build_graph (steps : List Step) : Except BuildError Graph :=
  match addNodes [] (steps.map Step.id) with
  | Except.error e => Except.error e
  | Except.ok nodes =>
      match steps with
      | [] => Except.error BuildError.emptySpec
      | s0 :: _ =>
          let ids := steps.map Step.id
          Except.ok
            { nodes := nodes,
              entry := s0.id,
              edges := (ids.zip ids.tail).map (fun p => (p.1, NodeTarget.node p.2))
                ++ [(ids.getLastD "", NodeTarget.terminal)] }

/-- A concrete step used by concrete instantiations below. -/
def demoStep (i a : String) : Step :=
  { id := i, agent := a, inputs := Value.obj [], instructions := "", output_schema := [] }

/-- A capability returning its input under key `y`. -/
def capEcho : Capability := fun v => Except.ok [("y", v)]

/-- A capability that always fails. -/
def capBoom : Capability := fun _ => Except.error "boom"

/-- A concrete two-capability registry. -/
def demoRegistry : List (String × Capability) := [("Echo", capEcho), ("Boom", capBoom)]

/-- Step A: echoes its literal input. -/
def stepA : Step :=
  { id := "A", agent := "Echo", inputs := Value.obj [("x", Value.num 1)],
    instructions := "", output_schema := [("y", Value.obj [])] }

/-- Step B: its capability always fails. -/
def stepB : Step :=
  { id := "B", agent := "Boom", inputs := Value.obj [], instructions := "",
    output_schema := [] }

/-- Step C: a step after the failing one. -/
def stepC : Step :=
  { id := "C", agent := "Echo", inputs := Value.obj [], instructions := "",
    output_schema := [] }

/-- Step D: declares an output key `z` its capability never produces. -/
def stepD : Step :=
  { id := "D", agent := "Echo", inputs := Value.obj [], instructions := "",
    output_schema := [("z", Value.obj [])] }

/-- Walking any path from an empty mapping stays at the empty mapping and
never fails: every `.get` on `\x7b\x7d` returns `\x7b\x7d` again. -/
lemma configWalk_emptyObj : ∀ parts : List String,
    configWalk (Value.obj []) parts = Except.ok (Value.obj [])
  | [] => rfl
  | _ :: rest => configWalk_emptyObj rest

/-- Adding pairwise-distinct fresh node ids succeeds and appends them. -/
lemma addNodes_ok : ∀ (ids acc : List String), ids.Nodup → (∀ i ∈ ids, i ∉ acc) →
    addNodes acc ids = Except.ok (acc ++ ids)
  | [], acc, _, _ => by simp [addNodes]
  | id :: rest, acc, h1, h2 => by
      have hid : id ∉ acc := h2 id (by simp)
      have ih := addNodes_ok rest (acc ++ [id]) h1.of_cons (by
        intro i hi
        simp only [List.mem_append, List.mem_singleton]
        rintro (hia | hii)
        · exact h2 i (by simp [hi]) hia
        · exact (List.nodup_cons.mp h1).1 (hii ▸ hi))
      simp only [addNodes, if_neg hid, ih, List.append_assoc, List.singleton_append]

/-- Adding node ids with a repetition fails with a duplicate-id error. -/
lemma addNodes_dup : ∀ (ids acc : List String), acc.Nodup → ¬ (acc ++ ids).Nodup →
    ∃ d, addNodes acc ids = Except.error (BuildError.duplicateStepId d)
  | [], acc, h1, h2 => absurd (by simpa using h1) h2
  | id :: rest, acc, h1, h2 => by
      by_cases hid : id ∈ acc
      · exact ⟨id, by simp [addNodes, hid]⟩
      · have h1' : (acc ++ [id]).Nodup := by
          simp [List.nodup_append, h1, hid]
        have h2' : ¬ ((acc ++ [id]) ++ rest).Nodup := by
          rw [List.append_assoc, List.singleton_append]
          exact h2
        obtain ⟨d, hd⟩ := addNodes_dup rest (acc ++ [id]) h1' h2'
        exact ⟨d, by simp [addNodes, hid, hd]⟩

/-- A successfully completed run segment composes with whatever follows. -/
lemma runSteps_append (registry : List (String × Capability))
    (cfg : List (String × Value)) :
    ∀ (pre : List Step) (st0 st1 : RunState) (rest : List Step),
    runSteps registry cfg st0 pre = (st1, none) →
    runSteps registry cfg st0 (pre ++ rest) = runSteps registry cfg st1 rest
  | [], st0, st1, rest, h => by
      simp only [runSteps] at h
      have h1 : st0 = st1 := congrArg Prod.fst h
      subst h1
      rfl
  | step :: pre', st0, st1, rest, h => by
      cases hE : execStep registry cfg st0 step with
      | error e => simp [runSteps, hE] at h
      | ok st' =>
          simp only [runSteps, hE] at h
          simpa [runSteps, hE] using runSteps_append registry cfg pre' st' st1 rest h

/-- C1 (counterexample): with empty `step_outputs`, the expression
`\x7b\x7bs1.output.x\x7d\x7d` — whose step id `s1` has no recorded output —
resolves to the original string itself, not to an empty mapping; the
source falls through to `return value` (line 162). -/
theorem resolve_missing_step_not_empty_mapping :
    resolveScalar [] [] "\x7b\x7bs1.output.x\x7d\x7d"
      = Except.ok (Value.str "\x7b\x7bs1.output.x\x7d\x7d")
    ∧ resolveScalar [] [] "\x7b\x7bs1.output.x\x7d\x7d"
      ≠ Except.ok (Value.obj []) := by
  refine ⟨rfl, ?_⟩
  show (Except.ok (Value.str "\x7b\x7bs1.output.x\x7d\x7d") : Except String Value)
      ≠ Except.ok (Value.obj [])
  simp

/-- C1 (amended): for every reference expression whose first segment is a
step id (not `config`) with at least three segments, if that step id is
absent from `run_state.step_outputs` at resolution time, then resolve
returns the original scalar string unchanged (the whole string, reference
token included), not an empty mapping. -/
theorem resolve_missing_step_returns_original
    (outs cfg : List (String × Value)) (s p : String)
    (h1 : findRef s = some p)
    (h2 : (pathParts p).headD "" ≠ "config")
    (h3 : 3 ≤ (pathParts p).length)
    (h4 : objGet outs ((pathParts p).headD "") = none) :
    resolveScalar outs cfg s = Except.ok (Value.str s) := by
  simp only [resolveScalar, h1]
  simp only [resolvePath, if_neg h2, if_pos h3, h4]

/-- C1 (witness): the amended statement at the concrete expression
`\x7b\x7bs1.output.x\x7d\x7d` against empty step outputs. -/
theorem resolve_missing_step_returns_original_witness :
    resolveScalar [("other", Value.obj [])] [] "\x7b\x7bs1.output.x\x7d\x7d"
      = Except.ok (Value.str "\x7b\x7bs1.output.x\x7d\x7d") :=
  resolve_missing_step_returns_original [("other", Value.obj [])] []
    "\x7b\x7bs1.output.x\x7d\x7d" "s1.output.x"
    (by decide) (by decide) (by decide) rfl

/-- C2: `RunState.record` (modelled from spec section 4.2) obeys the
write-once invariant: it succeeds exactly when the step id has no
recorded output yet, appending the new binding, and fails when the id
already has one. -/
theorem record_write_once (st : RunState) (stepId : String) (output : Value) :
    (objGet st.step_outputs stepId = none →
      st.record stepId output =
        Except.ok { st with step_outputs := st.step_outputs ++ [(stepId, output)] })
    ∧ (∀ prev, objGet st.step_outputs stepId = some prev →
        st.record stepId output
          = Except.error ("step already recorded: " ++ stepId)) := by
  constructor
  · intro h
    simp [RunState.record, h]
  · intro prev h
    simp [RunState.record, h]

/-- C2 (witness): recording a fresh id succeeds; re-recording an already
recorded id fails. -/
theorem record_write_once_witness :
    RunState.record ⟨[("s1", Value.obj [])], "s1"⟩ "s2" Value.null
      = Except.ok ⟨[("s1", Value.obj []), ("s2", Value.null)], "s1"⟩
    ∧ RunState.record ⟨[("s1", Value.obj [])], "s1"⟩ "s1" Value.null
      = Except.error ("step already recorded: " ++ "s1") :=
  ⟨(record_write_once ⟨[("s1", Value.obj [])], "s1"⟩ "s2" Value.null).1 rfl,
   (record_write_once ⟨[("s1", Value.obj [])], "s1"⟩ "s1" Value.null).2
      (Value.obj []) rfl⟩

/-- C3: when the first `\x7b\x7b<path>\x7d\x7d` token of a scalar string
resolves (config reference, or present step reference with three or more
segments), the result depends only on the token's path — any literal text
around it is discarded, never concatenated: two strings carrying the same
first token resolve identically. In particular
`resolve("prefix \x7b\x7bconfig.x\x7d\x7d suffix")` with config
`\x7bx: 9\x7d` returns the number 9. -/
theorem resolved_reference_replaces_entire_scalar :
    (∀ (outs cfg : List (String × Value)) (s₁ s₂ p : String),
        findRef s₁ = some p → findRef s₂ = some p →
        ((pathParts p).headD "" = "config" ∨
          ((pathParts p).headD "" ≠ "config" ∧ 3 ≤ (pathParts p).length ∧
            (objGet outs ((pathParts p).headD "")).isSome)) →
        resolveScalar outs cfg s₁ = resolveScalar outs cfg s₂)
    ∧ resolveScalar [] [("x", Value.num 9)] "prefix \x7b\x7bconfig.x\x7d\x7d suffix"
      = Except.ok (Value.num 9) := by
  refine ⟨?_, rfl⟩
  intro outs cfg s₁ s₂ p h1 h2 h3
  simp only [resolveScalar, h1, h2]
  rcases h3 with hc | ⟨hnc, hlen, hsome⟩
  · simp only [resolvePath, if_pos hc]
  · rcases Option.isSome_iff_exists.mp hsome with ⟨out, hout⟩
    simp only [resolvePath, if_neg hnc, if_pos hlen, hout]

/-- C3 (witness): a string with surrounding literal text resolves exactly
as the bare token does. -/
theorem resolved_reference_replaces_entire_scalar_witness :
    resolveScalar [] [("x", Value.num 9)] "prefix \x7b\x7bconfig.x\x7d\x7d suffix"
      = resolveScalar [] [("x", Value.num 9)] "\x7b\x7bconfig.x\x7d\x7d" :=
  resolved_reference_replaces_entire_scalar.1 [] [("x", Value.num 9)]
    "prefix \x7b\x7bconfig.x\x7d\x7d suffix" "\x7b\x7bconfig.x\x7d\x7d" "config.x"
    (by decide) (by decide) (Or.inl (by decide))

/-- C4: for a step-id reference with at least three segments whose step id
is recorded, the second segment is ignored — the result is the same for
any second segment — and resolution walks the recorded output from the
third segment onward, yielding the stored value. Concretely, with
`step_outputs = \x7bs1: \x7bleads: [1,2,3]\x7d\x7d`, the expression
`\x7b\x7bs1.output.leads\x7d\x7d` resolves to the stored list [1,2,3]. -/
theorem step_reference_ignores_second_segment :
    (∀ (outs cfg : List (String × Value)) (hd a b o₁ o₂ : String)
        (rest : List String) (out : Value),
        hd ≠ "config" → objGet outs hd = some out → rest ≠ [] →
        resolvePath outs cfg (hd :: a :: rest) o₁ = Except.ok (stepWalk out rest)
        ∧ resolvePath outs cfg (hd :: a :: rest) o₁
            = resolvePath outs cfg (hd :: b :: rest) o₂)
    ∧ resolveScalar
        [("s1", Value.obj [("leads", Value.arr [Value.num 1, Value.num 2, Value.num 3])])]
        [] "\x7b\x7bs1.output.leads\x7d\x7d"
      = Except.ok (Value.arr [Value.num 1, Value.num 2, Value.num 3]) := by
  refine ⟨?_, rfl⟩
  intro outs cfg hd a b o₁ o₂ rest out hnc hout hne
  have hlen : 1 ≤ rest.length := List.length_pos.mpr hne
  have key : ∀ (x o : String),
      resolvePath outs cfg (hd :: x :: rest) o = Except.ok (stepWalk out rest) := by
    intro x o
    have hlen2 : 3 ≤ (hd :: x :: rest).length := by
      simp only [List.length_cons]
      omega
    simp only [resolvePath, List.headD_cons]
    rw [if_neg hnc, if_pos hlen2, hout]
    rfl
  exact ⟨key a o₁, (key a o₁).trans (key b o₂).symm⟩

/-- C4 (witness): the general statement instantiated at the concrete
step output `\x7bs1: \x7bleads: [1,2,3]\x7d\x7d` and path `s1.output.leads`,
with two different second segments. -/
theorem step_reference_ignores_second_segment_witness :
    resolvePath
        [("s1", Value.obj [("leads", Value.arr [Value.num 1, Value.num 2, Value.num 3])])]
        [] ["s1", "output", "leads"] "orig"
      = Except.ok (Value.arr [Value.num 1, Value.num 2, Value.num 3])
    ∧ resolvePath
        [("s1", Value.obj [("leads", Value.arr [Value.num 1, Value.num 2, Value.num 3])])]
        [] ["s1", "output", "leads"] "orig"
      = resolvePath
        [("s1", Value.obj [("leads", Value.arr [Value.num 1, Value.num 2, Value.num 3])])]
        [] ["s1", "ignored", "leads"] "other" :=
  step_reference_ignores_second_segment.1
    [("s1", Value.obj [("leads", Value.arr [Value.num 1, Value.num 2, Value.num 3])])]
    [] "s1" "output" "ignored" "orig" "other" ["leads"]
    (Value.obj [("leads", Value.arr [Value.num 1, Value.num 2, Value.num 3])])
    (by decide) rfl (by decide)

/-- C5: a config reference walks `static_config` through the remaining
segments and a missing key at any level yields an empty mapping, not an
error: once a key is missing the walk continues on the empty mapping and
every later `.get` stays there. Concretely `\x7b\x7bconfig.a.b\x7d\x7d`
with config `\x7ba: \x7bb: 5\x7d\x7d` gives 5 and
`\x7b\x7bconfig.a.c\x7d\x7d` gives the empty mapping. -/
theorem config_missing_key_empty_mapping :
    (∀ (fields : List (String × Value)) (k : String) (rest : List String),
        objGet fields k = none →
        configWalk (Value.obj fields) (k :: rest) = Except.ok (Value.obj []))
    ∧ resolveScalar [] [("a", Value.obj [("b", Value.num 5)])] "\x7b\x7bconfig.a.b\x7d\x7d"
      = Except.ok (Value.num 5)
    ∧ resolveScalar [] [("a", Value.obj [("b", Value.num 5)])] "\x7b\x7bconfig.a.c\x7d\x7d"
      = Except.ok (Value.obj []) := by
  refine ⟨?_, rfl, rfl⟩
  intro fields k rest h
  show configWalk (objGetD fields k) rest = _
  rw [show objGetD fields k = Value.obj [] from by simp [objGetD, h]]
  exact configWalk_emptyObj rest

/-- C5 (witness): the missing-key clause at the concrete config
`\x7ba: \x7bb: 5\x7d\x7d`, key `c` missing at the second level. -/
theorem config_missing_key_empty_mapping_witness :
    configWalk (Value.obj [("b", Value.num 5)]) ["c"] = Except.ok (Value.obj []) :=
  config_missing_key_empty_mapping.1 [("b", Value.num 5)] "c" [] rfl

/-- C6: for every non-empty step list with pairwise-distinct ids,
`build_graph` succeeds with one node per step in order, entry point
`steps[0].id`, the internal edges `steps[i].id -> steps[i+1].id` given by
zipping the id list with its tail, and one final edge from the last
step's id to the terminal sentinel; the internal edges number exactly
`n - 1`, so the graph is a single linear chain. -/
theorem build_graph_linear_chain (s0 : Step) (rest : List Step)
    (h : ((s0 :: rest).map Step.id).Nodup) :
    build_graph (s0 :: rest) =
      Except.ok
        { nodes := (s0 :: rest).map Step.id,
          entry := s0.id,
          edges :=
            (((s0 :: rest).map Step.id).zip (((s0 :: rest).map Step.id).tail)).map
                (fun p => (p.1, NodeTarget.node p.2))
              ++ [(((s0 :: rest).map Step.id).getLastD "", NodeTarget.terminal)] }
    ∧ ((((s0 :: rest).map Step.id).zip (((s0 :: rest).map Step.id).tail)).map
          (fun p => (p.1, NodeTarget.node p.2))).length
        = (s0 :: rest).length - 1 := by
  constructor
  · have hAdd : addNodes [] ((s0 :: rest).map Step.id)
        = Except.ok ([] ++ (s0 :: rest).map Step.id) :=
      addNodes_ok _ _ h (by simp)
    simp only [List.nil_append] at hAdd
    simp only [build_graph, hAdd]
  · simp only [List.length_map, List.length_zip, List.length_tail,
      List.length_cons, List.map_cons, List.tail_cons]
    omega

/-- C6 (witness): a concrete two-step list builds the two-node chain
`A -> B -> END` with entry `A`. -/
theorem build_graph_linear_chain_witness :
    build_graph [demoStep "A" "Echo", demoStep "B" "Echo"] =
      Except.ok
        { nodes := ["A", "B"], entry := "A",
          edges := [("A", NodeTarget.node "B"), ("B", NodeTarget.terminal)] }
    ∧ ([("A", NodeTarget.node "B")] : List (String × NodeTarget)).length = 1 :=
  (build_graph_linear_chain (demoStep "A" "Echo") [demoStep "B" "Echo"] (by decide))

/-- C7: building from an empty step list fails with the empty-spec error
(the source raises on `steps[0]` before any step executes), and building
from a list whose ids repeat fails with a duplicate-step-id error (the
source's `add_node` raises on the repeated id); both happen at build
time, inside `build_graph`. -/
theorem build_graph_empty_and_duplicate_fail :
    build_graph [] = Except.error BuildError.emptySpec
    ∧ (∀ steps : List Step, ¬ (steps.map Step.id).Nodup →
        ∃ d, build_graph steps = Except.error (BuildError.duplicateStepId d)) := by
  refine ⟨rfl, ?_⟩
  intro steps h
  obtain ⟨d, hd⟩ := addNodes_dup (steps.map Step.id) [] List.nodup_nil (by simpa using h)
  exact ⟨d, by simp [build_graph, hd]⟩

/-- C7 (witness): a list repeating the id `A` fails with a duplicate-id
build error. -/
theorem build_graph_empty_and_duplicate_fail_witness :
    ∃ d, build_graph [demoStep "A" "Echo", demoStep "A" "Echo"]
      = Except.error (BuildError.duplicateStepId d) :=
  build_graph_empty_and_duplicate_fail.2
    [demoStep "A" "Echo", demoStep "A" "Echo"] (by decide)

/-- C8: when a capability's execute fails at a step, the failure
propagates immediately — the run stops with an error naming that step,
the following steps never run, and the final run state is exactly the
state left by the completed earlier steps: the failing step records
nothing. -/
theorem capability_failure_aborts_run
    (registry : List (String × Capability)) (cfg : List (String × Value))
    (st0 st1 : RunState) (pre post : List Step) (sk : Step)
    (cap : Capability) (ins : Value) (msg : String)
    (h1 : runSteps registry cfg st0 pre = (st1, none))
    (h2 : lookupAgent registry sk.agent = some cap)
    (h3 : resolve_value st1.step_outputs cfg sk.inputs = Except.ok ins)
    (h4 : cap ins = Except.error msg) :
    runSteps registry cfg st0 (pre ++ sk :: post)
      = (st1, some (ExecError.capabilityError sk.id msg)) := by
  rw [runSteps_append registry cfg pre st0 st1 (sk :: post) h1]
  have hE : execStep registry cfg st1 sk
      = Except.error (ExecError.capabilityError sk.id msg) := by
    simp only [execStep, h2, h3, h4]
  simp [runSteps, hE]

/-- C8 (witness): a three-step run whose second step fails leaves exactly
the first step's output in the run state and reports the error at step
`B`; step `C` never runs. -/
theorem capability_failure_aborts_run_witness :
    runSteps demoRegistry [] ⟨[], ""⟩ [stepA, stepB, stepC]
      = (⟨[("A", Value.obj [("y", Value.obj [("x", Value.num 1)])])], "A"⟩,
          some (ExecError.capabilityError "B" "boom")) :=
  capability_failure_aborts_run demoRegistry [] ⟨[], ""⟩
    ⟨[("A", Value.obj [("y", Value.obj [("x", Value.num 1)])])], "A"⟩
    [stepA] [stepC] stepB capBoom (Value.obj []) "boom"
    rfl rfl rfl rfl

/-- C9: output-schema validation never raises (it is the total function
`validate_output`) and never prevents recording: even when the capability
output misses a declared schema key (validation returns false), the node
function still records the output under the step id and succeeds, and
validation only emits a warning. -/
theorem output_validation_never_blocks_recording
    (registry : List (String × Capability)) (cfg : List (String × Value))
    (st : RunState) (step : Step) (cap : Capability) (ins : Value)
    (output : List (String × Value))
    (h1 : lookupAgent registry step.agent = some cap)
    (h2 : resolve_value st.step_outputs cfg step.inputs = Except.ok ins)
    (h3 : cap ins = Except.ok output)
    (h4 : (validate_output step.output_schema output).1 = false) :
    execStep registry cfg st step
      = Except.ok { step_outputs := st.step_outputs ++ [(step.id, Value.obj output)],
                    current_step := step.id }
    ∧ (validate_output step.output_schema output).2 ≠ [] := by
  constructor
  · simp only [execStep, h1, h2, h3]
  · unfold validate_output at h4 ⊢
    cases hf : step.output_schema.find? (fun p => (objGet output p.1).isNone) with
    | none => rw [hf] at h4; simp at h4
    | some p => simp

/-- C9 (witness): step `D` declares output key `z`; its capability
returns only `y`; the output is still recorded and the step succeeds,
with a warning emitted. -/
theorem output_validation_never_blocks_recording_witness :
    execStep demoRegistry [] ⟨[], ""⟩ stepD
      = Except.ok ⟨[("D", Value.obj [("y", Value.obj [])])], "D"⟩
    ∧ (validate_output stepD.output_schema [("y", Value.obj [])]).2 ≠ [] :=
  output_validation_never_blocks_recording demoRegistry [] ⟨[], ""⟩ stepD capEcho
    (Value.obj []) [("y", Value.obj [])] rfl rfl rfl rfl

/-- C10: the config walk is total only over mapping (or missing)
intermediates: on any present non-mapping intermediate value it raises
the attribute error instead of returning an empty mapping. Concretely,
with config `\x7ba: 5\x7d` the expression `\x7b\x7bconfig.a.b\x7d\x7d`
errors. -/
theorem config_walk_nonmapping_raises :
    (∀ (v : Value) (p : String) (rest : List String),
        v.isObj = false → configWalk v (p :: rest) = Except.error attrErr)
    ∧ resolveScalar [] [("a", Value.num 5)] "\x7b\x7bconfig.a.b\x7d\x7d"
      = Except.error attrErr := by
  refine ⟨?_, rfl⟩
  intro v p rest h
  cases v with
  | obj fields => simp [Value.isObj] at h
  | str s => rfl
  | num n => rfl
  | bool b => rfl
  | null => rfl
  | arr items => rfl

/-- C10 (witness): walking segment `b` into the number 5 raises. -/
theorem config_walk_nonmapping_raises_witness :
    configWalk (Value.num 5) ["b"] = Except.error attrErr :=
  config_walk_nonmapping_raises.1 (Value.num 5) "b" [] rfl
